import Mathlib

/-!
Verification of the Smith remote-execution agent (TypeScript sources) against
its natural-language specification.  The relevant parts of the program are
shallowly embedded as executable Lean definitions:

* `devkit/utils.ts`  — path/command guards and output truncation
* `devkit/tools/*`   — the tool handlers the claims mention
* `executor.ts`      — `SmithExecutor.execute` envelope normalization
* `server.ts`        — `SmithServer.verifyAuth`, `handleTask`, `handleConfigQuery`
* `devkit/registry.ts` — `buildDevKit` category filtering

Conventions of the embedding
* Paths follow the POSIX rules of Node's `path` module (the agent's documented
  deployment is the Linux Docker image); `path.sep` is `"/"`, `path.resolve`
  takes the process working directory as an explicit `cwd` argument.
* JavaScript strings are modeled as Lean `String` (sequences of scalar values);
  `Buffer.byteLength(s, "utf8")` is the length of the UTF-8 encoding.
* Asynchronous I/O (subprocess runs) is abstracted as an oracle argument
  `ShellOracle : String → List String → ShellRunResult` standing for
  `ShellAdapter.run`; filesystem effects after the guards are an
  `Except String Unit` argument.
* JSON values returned by tool handlers are the inductive `JVal`; DevKit
  handlers in the source return JSON *strings* which the executor immediately
  `JSON.parse`s back — the embedding works directly with the parsed value, so
  a handler result is `Except String JVal` (`.error` models a thrown Error,
  carrying `err.message`).
-/

namespace Smith

/-- A single-quote character (U+0027), used to assemble the error strings of
the source verbatim. -/
def sq : String := String.singleton (Char.ofNat 39)

/-- JSON values (the structured results DevKit tools produce). -/
inductive JVal where
  | jnull : JVal
  | jbool (b : Bool) : JVal
  | jnum (n : Int) : JVal
  | jstr (s : String) : JVal
  | jarr (elems : List JVal) : JVal
  | jobj (fields : List (String × JVal)) : JVal

/-- Property lookup on a JSON object (`obj.key` / `'key' in obj`). -/
def jLookup (fields : List (String × JVal)) (key : String) : Option JVal :=
  match fields with
  | [] => none
  | (k, v) :: rest => if k = key then some v else jLookup rest key

/-- JavaScript `Array.prototype.join(", ")`, as used for capability lists. -/
def joinComma : List String → String
  | [] => ""
  | [s] => s
  | s :: rest => s ++ ", " ++ joinComma rest

-- ───────────────────────── POSIX path model ─────────────────────────

/-- Split a character list at every `/` (segments of a POSIX path). -/
def splitSlashAux : List Char → List Char → List (List Char)
  | [], cur => [cur.reverse]
  | c :: rest, cur =>
      if c = '/' then cur.reverse :: splitSlashAux rest []
      else splitSlashAux rest (c :: cur)

def splitSlash (cs : List Char) : List (List Char) := splitSlashAux cs []

/-- Normalization step of `path.resolve`: drop empty and `.` segments, let
`..` pop the previous segment (or vanish at the root). -/
def normSegs (segs : List (List Char)) : List (List Char) :=
  segs.foldl
    (fun acc seg =>
      if seg = [] then acc
      else if seg = ['.'] then acc
      else if seg = ['.', '.'] then acc.dropLast
      else acc ++ [seg])
    []

/-- Join path segments back with `/` and a leading `/`. -/
def joinSegs : List (List Char) → List Char
  | [] => []
  | [s] => s
  | s :: rest => s ++ '/' :: joinSegs rest

/-- Node `path.resolve(p)` on POSIX, with the process working directory `cwd`
made explicit (`cwd` is assumed absolute, as `process.cwd()` always is):
an absolute `p` is normalized as is, a relative `p` is resolved against
`cwd`. -/
def pathResolve (cwd p : String) : String :=
  let full := if p.data.head? = some '/' then p else cwd ++ "/" ++ p
  String.mk ('/' :: joinSegs (normSegs (splitSlash full.data)))

/-- Model of `isWithinDir` from `devkit/utils.ts` (lines 143-147): both paths are
`path.resolve`d, then the file must equal the directory or start with the
directory followed by `path.sep`.  JavaScript `String#startsWith` is modeled
as a prefix test on the character data. -/
def isWithinDir (cwd filePath dir : String) : Bool :=
  let resolved := pathResolve cwd filePath
  let resolvedDir := pathResolve cwd dir
  resolved == resolvedDir || (resolvedDir ++ "/").data.isPrefixOf resolved.data

-- ───────────────────── command allowlist guard ─────────────────────

/-- JavaScript `\s` whitespace (the code points relevant to this model). -/
def isJsWs (c : Char) : Bool :=
  c = ' ' || c = '\t' || c = '\n' || c = '\r' ||
  c = Char.ofNat 11 || c = Char.ofNat 12 || c = Char.ofNat 160

/-- Model of `command.split(/\s+/)[0]`: JavaScript split yields a leading empty string
when the command starts with whitespace, so element 0 is the longest
whitespace-free prefix of the command (empty for leading whitespace). -/
def firstTokenJS (cmd : String) : String :=
  String.mk (cmd.data.takeWhile (fun c => !isJsWs c))

/-- Node `path.basename` on POSIX: strip trailing slashes, then keep what
follows the last remaining slash. -/
def posixBasename (p : String) : String :=
  let stripped := (p.data.reverse.dropWhile (fun c => c = '/')).reverse
  String.mk (stripped.reverse.takeWhile (fun c => c ≠ '/')).reverse

/-- ASCII lowercasing, modeling JavaScript `toLowerCase` on the binary names
this code handles. -/
def lowerStr (s : String) : String := String.mk (s.data.map Char.toLower)

/-- Model of `base.replace(/\.(exe|cmd|bat|sh|ps1)$/i, '')`: case-insensitively strip
one known executable extension from the end. -/
def stripKnownExt (s : String) : String :=
  let ls := lowerStr s
  let exts := [".exe", ".cmd", ".bat", ".sh", ".ps1"]
  match exts.find? (fun e => e.data.isSuffixOf ls.data) with
  | some e => String.mk (s.data.take (s.data.length - e.data.length))
  | none => s

/-- Model of `extractBinaryName` from `devkit/utils.ts` (lines 153-158): first token,
basename, extension stripped, lowercased. -/
def extractBinaryName (command : String) : String :=
  lowerStr (stripKnownExt (posixBasename (firstTokenJS command)))

/-- Model of `isCommandAllowed` from `devkit/utils.ts` (lines 164-172): empty allowlist
permits everything, otherwise the normalized binary must match a normalized
allowlist entry. -/
def isCommandAllowed (command : String) (allowedCommands : List String) : Bool :=
  if allowedCommands.isEmpty then true
  else allowedCommands.any (fun allowed => extractBinaryName allowed == extractBinaryName command)

-- ───────────────────── output truncation guard ─────────────────────

/-- UTF-8 encoding of one scalar value (what Node writes into a `Buffer`). -/
def charUtf8Bytes (c : Char) : List Nat :=
  let n := c.toNat
  if n < 0x80 then [n]
  else if n < 0x800 then [0xC0 + n / 64, 0x80 + n % 64]
  else if n < 0x10000 then [0xE0 + n / 4096, 0x80 + n / 64 % 64, 0x80 + n % 64]
  else [0xF0 + n / 262144, 0x80 + n / 4096 % 64, 0x80 + n / 64 % 64, 0x80 + n % 64]

/-- UTF-8 encoding of a string (`Buffer.from(s)`). -/
def utf8Encode (s : String) : List Nat :=
  s.data.foldr (fun c acc => charUtf8Bytes c ++ acc) []

/-- Model of `Buffer.byteLength(s, "utf8")`. -/
def utf8Len (s : String) : Nat := (utf8Encode s).length

/-- Is a byte a UTF-8 continuation byte (`10xxxxxx`)? -/
def isContByte (b : Nat) : Bool := 0x80 ≤ b && b < 0xC0

/-- The replacement character U+FFFD emitted by Node's UTF-8 decoder for
invalid or incomplete sequences. -/
def replChar : Char := Char.ofNat 0xFFFD

/-- Worker for the UTF-8 decoder; `fuel` bounds the number of steps (each step
consumes at least one byte, so `fuel = bytes.length` always suffices). -/
def decodeUtf8Go : Nat → List Nat → List Char
  | 0, _ => []
  | _, [] => []
  | fuel + 1, b :: rest =>
    if b < 0x80 then Char.ofNat b :: decodeUtf8Go fuel rest
    else if b < 0xC2 then replChar :: decodeUtf8Go fuel rest
    else if b < 0xE0 then
      match rest with
      | [] => [replChar]
      | b2 :: rest2 =>
        if isContByte b2 then Char.ofNat ((b - 0xC0) * 64 + (b2 - 0x80)) :: decodeUtf8Go fuel rest2
        else replChar :: decodeUtf8Go fuel (b2 :: rest2)
    else if b < 0xF0 then
      match rest with
      | [] => [replChar]
      | [_] => [replChar, replChar]
      | b2 :: b3 :: rest3 =>
        let lowOk := if b = 0xE0 then 0xA0 ≤ b2 && b2 < 0xC0
                     else if b = 0xED then 0x80 ≤ b2 && b2 < 0xA0
                     else isContByte b2
        if lowOk && isContByte b3 then
          Char.ofNat ((b - 0xE0) * 4096 + (b2 - 0x80) * 64 + (b3 - 0x80)) :: decodeUtf8Go fuel rest3
        else replChar :: decodeUtf8Go fuel (b2 :: b3 :: rest3)
    else if b < 0xF5 then
      match rest with
      | [] => [replChar]
      | [_] => [replChar, replChar]
      | [_, _] => [replChar, replChar, replChar]
      | b2 :: b3 :: b4 :: rest4 =>
        let lowOk := if b = 0xF0 then 0x90 ≤ b2 && b2 < 0xC0
                     else if b = 0xF4 then 0x80 ≤ b2 && b2 < 0x90
                     else isContByte b2
        if lowOk && isContByte b3 && isContByte b4 then
          Char.ofNat ((b - 0xF0) * 262144 + (b2 - 0x80) * 4096 + (b3 - 0x80) * 64 + (b4 - 0x80))
            :: decodeUtf8Go fuel rest4
        else replChar :: decodeUtf8Go fuel (b2 :: b3 :: b4 :: rest4)
    else replChar :: decodeUtf8Go fuel rest

/-- WHATWG-style UTF-8 decoding with replacement, modeling
`buffer.toString("utf8")`: a byte sequence cut in the middle of a multi-byte
character decodes its complete prefix and replaces the incomplete tail. -/
def decodeUtf8Chars (bytes : List Nat) : List Char := decodeUtf8Go bytes.length bytes

def decodeUtf8 (bytes : List Nat) : String := String.mk (decodeUtf8Chars bytes)

/-- Model of `MAX_OUTPUT_BYTES` from `devkit/types.ts`: 50 KiB. -/
def MAX_OUTPUT_BYTES : Nat := 50 * 1024

/-- The truncation marker appended by `truncateOutput`. -/
def truncMarker (bytes : Nat) : String :=
  "\n\n[OUTPUT TRUNCATED: " ++ toString bytes ++ " bytes total, showing first "
    ++ toString MAX_OUTPUT_BYTES ++ " bytes]"

/-- Model of `truncateOutput` from `devkit/utils.ts` (lines 131-137): strings of at most
`MAX_OUTPUT_BYTES` UTF-8 bytes pass unchanged; longer strings keep the decoded
first `MAX_OUTPUT_BYTES` bytes and gain a note with the original byte count. -/
def truncateOutput (output : String) : String :=
  let bytes := utf8Len output
  if bytes ≤ MAX_OUTPUT_BYTES then output
  else decodeUtf8 ((utf8Encode output).take MAX_OUTPUT_BYTES) ++ truncMarker bytes

-- ───────────────────── tool context and adapters ─────────────────────

/-- Model of `ToolContext` from `devkit/types.ts`, as populated by
`SmithExecutor.initialize` (all enable flags and the sandbox are set from the
local config; `sandbox_dir = none` models the TypeScript `undefined`). -/
structure ToolContext where
  working_dir : String
  allowed_commands : List String
  timeout_ms : Nat
  sandbox_dir : Option String
  readonly_mode : Bool
  enable_filesystem : Bool
  enable_shell : Bool
  enable_git : Bool
  enable_network : Bool

/-- JavaScript truthiness of the optional `ctx.sandbox_dir` (`undefined` and
`""` are falsy). -/
def sandboxTruthy (ctx : ToolContext) : Bool :=
  match ctx.sandbox_dir with
  | none => false
  | some s => s ≠ ""

/-- Model of `ctx.sandbox_dir || ctx.working_dir`. -/
def sandboxOrWorking (ctx : ToolContext) : String :=
  match ctx.sandbox_dir with
  | none => ctx.working_dir
  | some s => if s = "" then ctx.working_dir else s

/-- Model of `ShellRunResult` from `devkit/adapters/shell.ts`. -/
structure ShellRunResult where
  exitCode : Int
  stdout : String
  stderr : String
  timedOut : Bool

/-- Abstraction of `ShellAdapter.run`: maps a command and its argv to the
subprocess outcome observed by the tool under this run. -/
def ShellOracle := String → List String → ShellRunResult

-- ───────────────────── filesystem tools (devkit/tools/filesystem.ts) ─────

/-- Model of `resolveSafe` (filesystem.ts lines 11-16): absolute paths stay absolute,
relative ones resolve against the sandbox (or working) directory. -/
def resolveSafe (cwd : String) (ctx : ToolContext) (filePath : String) : String :=
  let base := sandboxOrWorking ctx
  if filePath.data.head? = some '/' then filePath else pathResolve cwd (base ++ "/" ++ filePath)

/-- The read-only denial message thrown by `guardPath`. -/
def readonlyMsg : String :=
  "Operation denied: DevKit is in read-only mode. Write/delete operations are blocked."

/-- The sandbox violation message thrown by `guardPath`. -/
def sandboxMsg (resolved dir : String) : String :=
  "Path " ++ sq ++ resolved ++ sq ++ " is outside the sandbox directory "
    ++ sq ++ dir ++ sq ++ ". Operation denied."

/-- Model of `guardPath` (filesystem.ts lines 23-32): destructive operations are
refused under read-only mode, and every operation must stay inside the
sandbox directory when one is set. -/
def guardPath (cwd : String) (ctx : ToolContext) (resolved : String) (destructive : Bool := false) :
    Except String Unit :=
  if destructive && ctx.readonly_mode then
    .error readonlyMsg
  else
    match ctx.sandbox_dir with
    | some sdir =>
      if sdir ≠ "" && !isWithinDir cwd resolved sdir then .error (sandboxMsg resolved sdir)
      else .ok ()
    | none => .ok ()

/-- Model of `write_file` (filesystem.ts lines 59-75); `fsEff` stands for the
`fs.ensureDir`/`fs.writeFile` effects after the guard. -/
def write_file (cwd : String) (ctx : ToolContext) (fsEff : Except String Unit)
    (file_path content : String) : Except String JVal :=
  let resolved := resolveSafe cwd ctx file_path
  (guardPath cwd ctx resolved true).bind fun _ =>
    fsEff.bind fun _ =>
      .ok (.jobj [("success", .jbool true), ("path", .jstr resolved)])

/-- Model of `append_file` (filesystem.ts lines 77-93). -/
def append_file (cwd : String) (ctx : ToolContext) (fsEff : Except String Unit)
    (file_path content : String) : Except String JVal :=
  let resolved := resolveSafe cwd ctx file_path
  (guardPath cwd ctx resolved true).bind fun _ =>
    fsEff.bind fun _ =>
      .ok (.jobj [("success", .jbool true), ("path", .jstr resolved)])

/-- Model of `delete_file` (filesystem.ts lines 95-107). -/
def delete_file (cwd : String) (ctx : ToolContext) (fsEff : Except String Unit)
    (file_path : String) : Except String JVal :=
  let resolved := resolveSafe cwd ctx file_path
  (guardPath cwd ctx resolved true).bind fun _ =>
    fsEff.bind fun _ =>
      .ok (.jobj [("success", .jbool true), ("deleted", .jstr resolved)])

/-- Model of `move_file` (filesystem.ts lines 109-127): both endpoints are guarded as
destructive. -/
def move_file (cwd : String) (ctx : ToolContext) (fsEff : Except String Unit)
    (source destination : String) : Except String JVal :=
  let src := resolveSafe cwd ctx source
  let dest := resolveSafe cwd ctx destination
  (guardPath cwd ctx src true).bind fun _ =>
    (guardPath cwd ctx dest true).bind fun _ =>
      fsEff.bind fun _ =>
        .ok (.jobj [("success", .jbool true), ("from", .jstr src), ("to", .jstr dest)])

/-- Model of `create_dir` (filesystem.ts lines 193-205). -/
def create_dir (cwd : String) (ctx : ToolContext) (fsEff : Except String Unit)
    (dir_path : String) : Except String JVal :=
  let resolved := resolveSafe cwd ctx dir_path
  (guardPath cwd ctx resolved true).bind fun _ =>
    fsEff.bind fun _ =>
      .ok (.jobj [("success", .jbool true), ("path", .jstr resolved)])

-- ───────────────────── shell tools (devkit/tools/shell.ts) ─────────────

/-- Model of `run_command` (shell.ts lines 17-51): allowlist check, sandbox check on
the working directory, then the subprocess; its JSON result has no `error`
field on a non-zero exit. -/
def run_command (cwd : String) (ctx : ToolContext) (run : ShellOracle)
    (command : String) (args : List String) (timeout_ms : Option Nat) (cwdArg : Option String) :
    Except String JVal :=
  if !isCommandAllowed command ctx.allowed_commands then
    .ok (.jobj [("success", .jbool false),
      ("error", .jstr ("Command " ++ sq ++ command ++ sq
        ++ " is not in the allowed_commands list for this project. Allowed: ["
        ++ joinComma ctx.allowed_commands ++ "]"))])
  else
    let effectiveCwd := cwdArg.getD ctx.working_dir
    match ctx.sandbox_dir with
    | some sdir =>
      if sdir ≠ "" then
        let resolvedCwd := if effectiveCwd.data.head? = some '/' then effectiveCwd
                           else pathResolve cwd (sdir ++ "/" ++ effectiveCwd)
        if !isWithinDir cwd resolvedCwd sdir then
          .ok (.jobj [("success", .jbool false),
            ("error", .jstr ("Working directory " ++ sq ++ resolvedCwd ++ sq
              ++ " is outside the sandbox directory " ++ sq ++ sdir ++ sq ++ ". Operation denied."))])
        else
          let result := run command args
          .ok (.jobj [("success", .jbool (result.exitCode == 0)),
            ("stdout", .jstr (truncateOutput result.stdout)),
            ("stderr", .jstr (truncateOutput result.stderr)),
            ("exitCode", .jnum result.exitCode),
            ("timedOut", .jbool result.timedOut)])
      else
        let result := run command args
        .ok (.jobj [("success", .jbool (result.exitCode == 0)),
          ("stdout", .jstr (truncateOutput result.stdout)),
          ("stderr", .jstr (truncateOutput result.stderr)),
          ("exitCode", .jnum result.exitCode),
          ("timedOut", .jbool result.timedOut)])
    | none =>
      let result := run command args
      .ok (.jobj [("success", .jbool (result.exitCode == 0)),
        ("stdout", .jstr (truncateOutput result.stdout)),
        ("stderr", .jstr (truncateOutput result.stderr)),
        ("exitCode", .jnum result.exitCode),
        ("timedOut", .jbool result.timedOut)])

-- ───────────────────── git tools (devkit/tools/git.ts) ───────────────

/-- Result of the shared `git(args)` helper in git.ts. -/
structure GitHelperResult where
  success : Bool
  output : String

/-- The `git(args)` helper (git.ts lines 208-220): allowlist check on the
`git` binary, then the shell adapter; success is exit code zero.  Note there
is no read-only check anywhere on this path. -/
def gitHelper (ctx : ToolContext) (run : ShellOracle) (args : List String) : GitHelperResult :=
  if !isCommandAllowed "git" ctx.allowed_commands then
    { success := false, output := sq ++ "git" ++ sq ++ " is not in the allowed_commands list." }
  else
    let result := run "git" args
    { success := result.exitCode == 0,
      output := truncateOutput (result.stdout ++ (if result.stderr ≠ "" then "\n" ++ result.stderr else "")) }

/-- Model of `git_commit` (git.ts lines 292-307): argv `git commit -m <message>`
(plus `--allow-empty`), JSON `{success, output}`. -/
def git_commit (ctx : ToolContext) (run : ShellOracle) (message : String) (allow_empty : Bool) :
    Except String JVal :=
  let args := ["commit", "-m", message] ++ (if allow_empty then ["--allow-empty"] else [])
  let r := gitHelper ctx run args
  .ok (.jobj [("success", .jbool r.success), ("output", .jstr r.output)])

-- ───────────────────── system tools (devkit/tools/system.ts) ──────────

/-- Model of `content.replace(/'/g, "'\\''")` in `write_clipboard`. -/
def escapeSingleQuotes (s : String) : String :=
  String.mk (s.data.foldr
    (fun c acc =>
      if c = Char.ofNat 39 then Char.ofNat 39 :: '\\' :: Char.ofNat 39 :: Char.ofNat 39 :: acc
      else c :: acc) [])

/-- Model of `write_clipboard` (system.ts lines 73-100), Linux branch: pipes the
content into `xclip` through `sh -c`; its JSON result is just
`{success: exitCode === 0}` and carries no read-only check. -/
def write_clipboard (ctx : ToolContext) (run : ShellOracle) (content : String) :
    Except String JVal :=
  let cmdline := "printf " ++ sq ++ "%s" ++ sq ++ " " ++ sq ++ escapeSingleQuotes content ++ sq
    ++ " | xclip -selection clipboard"
  let result := run "sh" ["-c", cmdline]
  .ok (.jobj [("success", .jbool (result.exitCode == 0))])

-- ───────────────────── executor (executor.ts) ────────────────────────

/-- The `{success, data, error?, duration_ms}` envelope every tool outcome is
normalized into.  `error = none` models the absent/`undefined` field. -/
structure Envelope where
  success : Bool
  data : JVal
  error : Option JVal
  duration_ms : Nat

/-- The `UnknownTool` error string (executor.ts line 57). -/
def unknownToolMsg (capabilities : List String) (toolName : String) : String :=
  "Unknown tool: " ++ sq ++ toolName ++ sq ++ ". Available: [" ++ joinComma capabilities ++ "]"

/-- Does the parsed tool result report its own failure
(`typeof parsed === "object" && parsed !== null && "success" in parsed &&
parsed.success === false`, executor.ts lines 78-82)? -/
def isToolError : JVal → Bool
  | .jobj fields =>
    match jLookup fields "success" with
    | some (.jbool false) => true
    | _ => false
  | _ => false

/-- The `error` surfaced from a self-reported tool failure
(`(parsed as any).error`: absent when the tool offered none). -/
def toolErrorField : JVal → Option JVal
  | .jobj fields => jLookup fields "error"
  | _ => none

/-- Model of `SmithExecutor.execute` (executor.ts lines 48-98).  `capabilities` is the
enabled tool-name set, `outcome` abstracts `await tool.invoke(args)` already
JSON-parsed (`.error` = the handler threw), `elapsed` is the measured
`Date.now() - start`.  Unknown tools short-circuit with `duration_ms = 0`
without touching the handler. -/
def executeEnvelope (capabilities : List String) (toolName : String)
    (outcome : Except String JVal) (elapsed : Nat) : Envelope :=
  if capabilities.contains toolName then
    match outcome with
    | .error msg =>
      { success := false, data := .jnull, error := some (.jstr msg), duration_ms := elapsed }
    | .ok parsed =>
      { success := !isToolError parsed,
        data := parsed,
        error := if isToolError parsed then toolErrorField parsed else none,
        duration_ms := elapsed }
  else
    { success := false, data := .jnull,
      error := some (.jstr (unknownToolMsg capabilities toolName)), duration_ms := 0 }

-- ───────────────────── local config (config.ts) ──────────────────────

/-- Model of `SmithLocalConfig`: the fields the embedded components read.  The zod
schema (config.ts lines 14-39) enforces `name` nonempty and `auth_token`
nonempty when present; the loader then guarantees `auth_token` is set.
`max_concurrent_tasks` and `idle_timeout_ms` are read by the newer server
(`server.ts`), which per the design notes is the authoritative variant. -/
structure SmithLocalConfig where
  name : String
  auth_token : String
  sandbox_dir : String
  readonly_mode : Bool
  enable_filesystem : Bool
  enable_shell : Bool
  enable_git : Bool
  enable_network : Bool
  allowed_shell_commands : List String
  timeout_ms : Nat
  max_concurrent_tasks : Nat

/-- Model of `SmithExecutor.initialize` (executor.ts lines 19-30): the `ToolContext`
derived from the local config. -/
def ctxOfConfig (cfg : SmithLocalConfig) : ToolContext :=
  { working_dir := cfg.sandbox_dir,
    allowed_commands := cfg.allowed_shell_commands,
    timeout_ms := cfg.timeout_ms,
    sandbox_dir := some cfg.sandbox_dir,
    readonly_mode := cfg.readonly_mode,
    enable_filesystem := cfg.enable_filesystem,
    enable_shell := cfg.enable_shell,
    enable_git := cfg.enable_git,
    enable_network := cfg.enable_network }

-- ───────────────────── registry (devkit/registry.ts) ─────────────────

/-- The categories registered by `devkit/index.ts` side-effect imports, in
the order imported (filesystem.ts, shell.ts, processes.ts, network.ts,
git.ts, packages.ts, system.ts, browser.ts each call
`registerToolFactory`). -/
def registeredCategories : List String :=
  ["filesystem", "shell", "processes", "network", "git", "packages", "system", "browser"]

/-- Model of `TOGGLEABLE_CATEGORIES` plus the filter in `buildDevKit` (registry.ts
lines 14-34): the four toggleable categories obey their context flag, all
others always load. -/
def categoryEnabled (ctx : ToolContext) (category : String) : Bool :=
  if category = "filesystem" then ctx.enable_filesystem
  else if category = "shell" then ctx.enable_shell
  else if category = "git" then ctx.enable_git
  else if category = "network" then ctx.enable_network
  else true

/-- The categories whose factories `buildDevKit` actually runs for a context
(the tools that are built and executable). -/
def buildDevKitCategories (ctx : ToolContext) : List String :=
  registeredCategories.filter (categoryEnabled ctx)

-- ───────────────────── protocol server (server.ts) ───────────────────

/-- Model of `SMITH_PROTOCOL_VERSION` (protocol/types.ts). -/
def SMITH_PROTOCOL_VERSION : Int := 1

/-- Leading decimal digits of a character list as a number, if any. -/
def digitsVal (cs : List Char) : Option Int :=
  let ds := cs.takeWhile Char.isDigit
  if ds = [] then none
  else some (ds.foldl (fun acc d => acc * 10 + (Int.ofNat (d.toNat - 48))) 0)

/-- JavaScript `parseInt(s, 10)`: skip leading whitespace, optional sign,
then the longest digit prefix (trailing garbage ignored); `none` models
`NaN`. -/
def parseIntTen (s : String) : Option Int :=
  match s.data.dropWhile isJsWs with
  | '+' :: rest => digitsVal rest
  | '-' :: rest => (digitsVal rest).map (fun n => -n)
  | rest => digitsVal rest

/-- Model of `SmithServer.verifyAuth` (server.ts lines 159-176): the `x-smith-auth`
header must be truthy and equal the configured token; a truthy
`x-smith-protocol-version` header must `parseInt` to the protocol version.
`none` models an absent header. -/
def verifyAuth (auth_token : String) (hdrAuth hdrProtocolVersion : Option String) : Bool :=
  match hdrAuth with
  | none => false
  | some token =>
    if token = "" then false
    else if token ≠ auth_token then false
    else
      match hdrProtocolVersion with
      | none => true
      | some pv =>
        if pv = "" then true
        else if parseIntTen pv ≠ some SMITH_PROTOCOL_VERSION then false
        else true

/-- Frames the server sends on a handshake attempt: `verifyClient` only lets
accepted connections reach `handleConnection`, which sends the register
frame; refused handshakes get nothing. -/
def handshakeFrames (auth_token : String) (hdrAuth hdrProtocolVersion : Option String)
    (registerFrame : α) : List α :=
  if verifyAuth auth_token hdrAuth hdrProtocolVersion then [registerFrame] else []

/-- Outbound messages of the task path. -/
inductive OutMsg where
  | taskProgress (id : String) (message : String) (percent : Nat) : OutMsg
  | taskResult (id : String) (result : Envelope) : OutMsg

def isTaskProgressFor (id : String) : OutMsg → Bool
  | .taskProgress i _ _ => i == id
  | _ => false

def isTaskResultFor (id : String) : OutMsg → Bool
  | .taskResult i _ => i == id
  | _ => false

/-- The busy error string (server.ts line 257). -/
def busyMsg (cfg : SmithLocalConfig) : String :=
  "Smith " ++ sq ++ cfg.name ++ sq ++ " is busy (max_concurrent_tasks="
    ++ toString cfg.max_concurrent_tasks ++ " reached)"

/-- The busy `task_result` payload (server.ts lines 251-260). -/
def busyEnvelope (cfg : SmithLocalConfig) : Envelope :=
  { success := false, data := .jnull, error := some (.jstr (busyMsg cfg)), duration_ms := 0 }

/-- The `task_result` payload of the catch branch (server.ts lines 300-310). -/
def thrownEnvelope (msg : String) : Envelope :=
  { success := false, data := .jnull, error := some (.jstr msg), duration_ms := 0 }

/-- Model of `SmithServer.handleTask` (server.ts lines 242-319), returning the emitted
messages and whether the executor was invoked.

The busy reply and the progress notification are sent synchronously with the
message event (before any suspension point), so the socket — open when the
message arrived — is still open for them; only the `task_result` send happens
after the `await` on the executor, so its `ws.readyState === OPEN` guard is a
genuine branch, modeled by `openAtResult`.  `exec` abstracts the awaited
executor call, `.error` covering the catch branch. -/
def handleTask (cfg : SmithLocalConfig) (activeTasks : Nat) (id tool : String)
    (openAtResult : Bool) (exec : Except String Envelope) : List OutMsg × Bool :=
  if activeTasks ≥ cfg.max_concurrent_tasks then
    ([.taskResult id (busyEnvelope cfg)], false)
  else
    let progress := OutMsg.taskProgress id ("Executing tool: " ++ tool) 0
    match exec with
    | .ok result =>
      ([progress] ++ (if openAtResult then [.taskResult id result] else []), true)
    | .error msg =>
      ([progress] ++ (if openAtResult then [.taskResult id (thrownEnvelope msg)] else []), true)

/-- Model of `enabled_categories` of the `config_report` built by
`SmithServer.handleConfigQuery` (server.ts lines 336-357): the four
toggleable categories by their flags, then the literals `processes`,
`packages`, `system` — no `browser`. -/
def enabledCategoriesReport (cfg : SmithLocalConfig) : List String :=
  (if cfg.enable_filesystem then ["filesystem"] else [])
    ++ (if cfg.enable_shell then ["shell"] else [])
    ++ (if cfg.enable_git then ["git"] else [])
    ++ (if cfg.enable_network then ["network"] else [])
    ++ ["processes", "packages", "system"]

-- ───────────── spec-side definitions (for refinement claims) ─────────────

/-- Spec-side predicate for the protocol-version header: the code only
enforces the version check on a truthy (non-empty) header. -/
def pvAccept : Option String → Prop
  | none => True
  | some pv => pv = "" ∨ parseIntTen pv = some SMITH_PROTOCOL_VERSION

/-- Spec-side normalization pipeline of §4.2: basename, strip known
executable extension case-insensitively, lowercase. -/
def specNormalize (tok : String) : String := lowerStr (stripKnownExt (posixBasename tok))

/-- The first token of a command under the spec's natural reading: the first
maximal nonempty whitespace-delimited chunk. -/
def specFirstToken (cmd : String) : String :=
  String.mk ((cmd.data.dropWhile isJsWs).takeWhile (fun c => !isJsWs c))

/-- Model of `isCommandAllowed` as the spec words it (claim C7): empty allowlist
permits all, otherwise the normalized base-name of the first token must be a
member of the similarly normalized allowlist. -/
def specCommandAllowed (cmd : String) (allow : List String) : Bool :=
  if allow.isEmpty then true
  else (allow.map (fun a => specNormalize (specFirstToken a))).contains
    (specNormalize (specFirstToken cmd))

/-- Like `specCommandAllowed`, but with JavaScript `split(/\s+/)[0]`
tokenization (the amended reading: a command with leading whitespace yields
an empty first token). -/
def specCommandAllowedAmended (cmd : String) (allow : List String) : Bool :=
  if allow.isEmpty then true
  else (allow.map (fun a => specNormalize (firstTokenJS a))).contains
    (specNormalize (firstTokenJS cmd))

/-- A string of `n` ASCII `a` characters (`n` UTF-8 bytes), for the
truncation boundary checks. -/
def aRep (n : Nat) : String := String.mk (List.replicate n 'a')

-- ───────────────────────── shared lemmas ─────────────────────────

theorem strData_append (s t : String) : (s ++ t).data = s.data ++ t.data := by
  cases s; cases t; rfl

theorem isPrefixOf_iff_exists :
    ∀ (l₁ l₂ : List Char), l₁.isPrefixOf l₂ = true ↔ ∃ t, l₁ ++ t = l₂ := by
  intro l₁
  induction l₁ with
  | nil => intro l₂; simp [List.isPrefixOf]
  | cons a as ih =>
    intro l₂
    cases l₂ with
    | nil => simp [List.isPrefixOf]
    | cons b bs =>
      simp only [List.isPrefixOf, Bool.and_eq_true, beq_iff_eq, ih bs, List.cons_append,
        List.cons.injEq]
      constructor
      · rintro ⟨rfl, t, rfl⟩; exact ⟨t, rfl, rfl⟩
      · rintro ⟨t, rfl, rfl⟩; exact ⟨rfl, t, rfl⟩

theorem joinComma_mem_decomp (c : String) :
    ∀ (l : List String), c ∈ l → ∃ pre suf, (joinComma l).data = pre ++ c.data ++ suf := by
  intro l
  induction l with
  | nil => intro h; cases h
  | cons s rest ih =>
    intro h
    cases rest with
    | nil =>
      have hc : c = s := by simpa using h
      subst hc
      exact ⟨[], [], by simp [joinComma]⟩
    | cons s2 rest2 =>
      rcases List.mem_cons.mp h with hcs | h2
      · subst hcs
        refine ⟨[], (", " ++ joinComma (s2 :: rest2)).data, ?_⟩
        simp [joinComma, strData_append]
      · obtain ⟨pre, suf, hps⟩ := ih h2
        refine ⟨(s ++ ", ").data ++ pre, suf, ?_⟩
        simp [joinComma, strData_append, hps]

-- ───────────────────────── claim C6 ─────────────────────────

/-- C6: `isWithinDir(p, root)` returns true iff, after resolving both
arguments to absolute canonical form, the resolved `p` equals the resolved
`root` or starts with it followed by the path separator; a path equal to the
sandbox root is permitted and `sandbox_root/../x` is not. -/
theorem isWithinDir_spec :
    (∀ cwd p root : String, isWithinDir cwd p root = true ↔
      (pathResolve cwd p = pathResolve cwd root ∨
        ∃ t, (pathResolve cwd root ++ "/").data ++ t = (pathResolve cwd p).data))
    ∧ isWithinDir "/" "/sandbox" "/sandbox" = true
    ∧ isWithinDir "/" "/sandbox/../x" "/sandbox" = false := by
  refine ⟨fun cwd p root => ?_, by decide, by decide⟩
  unfold isWithinDir
  simp only [Bool.or_eq_true, beq_iff_eq, isPrefixOf_iff_exists]

/-- Witness for C6: an instantiation of the equivalence at a concrete path
strictly below the root. -/
theorem isWithinDir_spec_witness : isWithinDir "/" "/a/b" "/a" = true :=
  (isWithinDir_spec.1 "/" "/a/b" "/a").mpr (Or.inr ⟨['b'], by decide⟩)

-- ───────────────────────── claim C2 ─────────────────────────

/-- C2: when the in-flight count has reached `max_concurrent_tasks`, an
inbound task is answered immediately by a single failed `task_result` whose
error names the busy condition and whose `duration_ms` is 0, and the executor
is not invoked. -/
theorem handleTask_busy (cfg : SmithLocalConfig) (activeTasks : Nat) (id tool : String)
    (openAtResult : Bool) (exec : Except String Envelope)
    (h : activeTasks ≥ cfg.max_concurrent_tasks) :
    handleTask cfg activeTasks id tool openAtResult exec
        = ([.taskResult id (busyEnvelope cfg)], false)
    ∧ (busyEnvelope cfg).success = false
    ∧ (busyEnvelope cfg).duration_ms = 0
    ∧ (busyEnvelope cfg).error = some (.jstr (busyMsg cfg))
    ∧ (∃ pre suf, (busyMsg cfg).data = pre ++ "busy".data ++ suf) := by
  refine ⟨?_, rfl, rfl, rfl, ?_⟩
  · unfold handleTask
    rw [if_pos h]
  · refine ⟨("Smith " ++ sq ++ cfg.name ++ sq ++ " is ").data,
      (" (max_concurrent_tasks=" ++ toString cfg.max_concurrent_tasks ++ " reached)").data, ?_⟩
    simp [busyMsg, strData_append]

/-- Witness for C2: a busy reply at `max_concurrent_tasks = 1` with one task
in flight. -/
theorem handleTask_busy_witness :
    handleTask
        { name := "w", auth_token := "t", sandbox_dir := "/w", readonly_mode := false,
          enable_filesystem := true, enable_shell := true, enable_git := true,
          enable_network := true, allowed_shell_commands := [], timeout_ms := 30000,
          max_concurrent_tasks := 1 }
        1 "a" "read_file" true (.ok { success := true, data := .jnull, error := none, duration_ms := 3 })
      = ([.taskResult "a" (busyEnvelope
          { name := "w", auth_token := "t", sandbox_dir := "/w", readonly_mode := false,
            enable_filesystem := true, enable_shell := true, enable_git := true,
            enable_network := true, allowed_shell_commands := [], timeout_ms := 30000,
            max_concurrent_tasks := 1 })], false) :=
  (handleTask_busy _ 1 "a" "read_file" true
    (.ok { success := true, data := .jnull, error := none, duration_ms := 3 }) (by decide)).1

-- ───────────────────────── claim C3 ─────────────────────────

/-- C3 (amended): every inbound task produces at most one `task_result` and
at most one `task_progress` with its id, any progress strictly precedes the
result, and a `task_result` is emitted exactly once whenever the websocket is
still open at send time; if the socket closed during execution, the result
send is skipped. -/
theorem handleTask_emission (cfg : SmithLocalConfig) (activeTasks : Nat) (id tool : String)
    (openAtResult : Bool) (exec : Except String Envelope) :
    ∃ p r, (handleTask cfg activeTasks id tool openAtResult exec).1 = p ++ r
      ∧ (∀ m ∈ p, isTaskProgressFor id m = true)
      ∧ (∀ m ∈ r, isTaskResultFor id m = true)
      ∧ p.length ≤ 1 ∧ r.length ≤ 1
      ∧ (openAtResult = true → r.length = 1) := by
  unfold handleTask
  by_cases hb : activeTasks ≥ cfg.max_concurrent_tasks
  · rw [if_pos hb]
    exact ⟨[], [.taskResult id (busyEnvelope cfg)], rfl, by simp,
      by simp [isTaskResultFor], by simp, by simp, fun _ => rfl⟩
  · rw [if_neg hb]
    cases exec with
    | ok result =>
      refine ⟨[.taskProgress id ("Executing tool: " ++ tool) 0],
        if openAtResult then [.taskResult id result] else [], rfl,
        by simp [isTaskProgressFor], ?_, by simp, ?_, ?_⟩
      · intro m hm
        cases openAtResult <;> simp_all [isTaskResultFor]
      · cases openAtResult <;> simp
      · intro ho; simp [ho]
    | error msg =>
      refine ⟨[.taskProgress id ("Executing tool: " ++ tool) 0],
        if openAtResult then [.taskResult id (thrownEnvelope msg)] else [], rfl,
        by simp [isTaskProgressFor], ?_, by simp, ?_, ?_⟩
      · intro m hm
        cases openAtResult <;> simp_all [isTaskResultFor]
      · cases openAtResult <;> simp
      · intro ho; simp [ho]

/-- Counterexample for C3 as stated ("exactly one `task_result` is emitted"):
a dispatched task whose connection is no longer open when the executor
returns emits zero `task_result` messages (the executor was invoked, the
progress frame was sent, the result send is skipped). -/
theorem handleTask_result_dropped :
    ((handleTask
        { name := "w", auth_token := "t", sandbox_dir := "/w", readonly_mode := false,
          enable_filesystem := true, enable_shell := true, enable_git := true,
          enable_network := true, allowed_shell_commands := [], timeout_ms := 30000,
          max_concurrent_tasks := 2 }
        0 "a" "read_file" false
        (.ok { success := true, data := .jnull, error := none, duration_ms := 3 })).1.countP
      (isTaskResultFor "a") = 0)
    ∧ (handleTask
        { name := "w", auth_token := "t", sandbox_dir := "/w", readonly_mode := false,
          enable_filesystem := true, enable_shell := true, enable_git := true,
          enable_network := true, allowed_shell_commands := [], timeout_ms := 30000,
          max_concurrent_tasks := 2 }
        0 "a" "read_file" false
        (.ok { success := true, data := .jnull, error := none, duration_ms := 3 })).2 = true :=
  ⟨rfl, rfl⟩

/-- Witness for C3's amended theorem at a concrete open-socket run. -/
theorem handleTask_emission_witness :
    ∃ p r, (handleTask
        { name := "w", auth_token := "t", sandbox_dir := "/w", readonly_mode := false,
          enable_filesystem := true, enable_shell := true, enable_git := true,
          enable_network := true, allowed_shell_commands := [], timeout_ms := 30000,
          max_concurrent_tasks := 2 }
        0 "a" "read_file" true
        (.ok { success := true, data := .jnull, error := none, duration_ms := 3 })).1 = p ++ r
      ∧ (∀ m ∈ p, isTaskProgressFor "a" m = true)
      ∧ (∀ m ∈ r, isTaskResultFor "a" m = true)
      ∧ p.length ≤ 1 ∧ r.length ≤ 1
      ∧ (true = true → r.length = 1) :=
  handleTask_emission _ 0 "a" "read_file" true
    (.ok { success := true, data := .jnull, error := none, duration_ms := 3 })

-- ───────────────────────── claim C1 ─────────────────────────

theorem guardPath_readonly (cwd : String) (ctx : ToolContext) (resolved : String)
    (h : ctx.readonly_mode = true) :
    guardPath cwd ctx resolved true = .error readonlyMsg := by
  simp [guardPath, h]

/-- C1 (amended): read-only mode blocks exactly the destructive filesystem
operations — `write_file`, `append_file`, `delete_file`, `move_file`,
`create_dir` all throw the read-only denial, which the executor surfaces as a
failed envelope; the destructive git, clipboard-write and download operations
carry no read-only check (see the counterexample). -/
theorem readonly_blocks_filesystem (cwd : String) (ctx : ToolContext)
    (fsEff : Except String Unit) (p c s d dp : String)
    (h : ctx.readonly_mode = true) :
    write_file cwd ctx fsEff p c = .error readonlyMsg
    ∧ append_file cwd ctx fsEff p c = .error readonlyMsg
    ∧ delete_file cwd ctx fsEff p = .error readonlyMsg
    ∧ move_file cwd ctx fsEff s d = .error readonlyMsg
    ∧ create_dir cwd ctx fsEff dp = .error readonlyMsg
    ∧ (∀ (caps : List String) (name msg : String) (elapsed : Nat),
        caps.contains name = true →
          (executeEnvelope caps name (.error msg) elapsed).success = false) := by
  refine ⟨?_, ?_, ?_, ?_, ?_, ?_⟩
  · simp [write_file, guardPath_readonly cwd ctx _ h, Except.bind]
  · simp [append_file, guardPath_readonly cwd ctx _ h, Except.bind]
  · simp [delete_file, guardPath_readonly cwd ctx _ h, Except.bind]
  · simp [move_file, guardPath_readonly cwd ctx _ h, Except.bind]
  · simp [create_dir, guardPath_readonly cwd ctx _ h, Except.bind]
  · intro caps name msg elapsed hc
    have hc' : name ∈ caps := by simpa using hc
    simp [executeEnvelope, hc']

/-- Counterexample for C1 as stated ("no destructive tool returns
`success=true` under read-only mode"): with `readonly_mode = true` and an
empty allowlist, `git_commit` on a zero-exit subprocess and `write_clipboard`
on a zero-exit subprocess both come back from the executor with
`success = true`. -/
theorem readonly_destructive_success :
    (ToolContext.readonly_mode
        { working_dir := "/w", allowed_commands := [], timeout_ms := 30000,
          sandbox_dir := some "/w", readonly_mode := true, enable_filesystem := true,
          enable_shell := true, enable_git := true, enable_network := true } = true)
    ∧ (executeEnvelope ["git_commit", "write_clipboard"] "git_commit"
        (git_commit
          { working_dir := "/w", allowed_commands := [], timeout_ms := 30000,
            sandbox_dir := some "/w", readonly_mode := true, enable_filesystem := true,
            enable_shell := true, enable_git := true, enable_network := true }
          (fun _ _ => { exitCode := 0, stdout := "ok", stderr := "", timedOut := false })
          "msg" false) 5).success = true
    ∧ (executeEnvelope ["git_commit", "write_clipboard"] "write_clipboard"
        (write_clipboard
          { working_dir := "/w", allowed_commands := [], timeout_ms := 30000,
            sandbox_dir := some "/w", readonly_mode := true, enable_filesystem := true,
            enable_shell := true, enable_git := true, enable_network := true }
          (fun _ _ => { exitCode := 0, stdout := "", stderr := "", timedOut := false })
          "hello") 5).success = true :=
  ⟨rfl, rfl, rfl⟩

/-- Witness for C1's amended theorem: the read-only denial on a concrete
context and concrete paths. -/
theorem readonly_blocks_filesystem_witness :
    write_file "/"
        { working_dir := "/w", allowed_commands := [], timeout_ms := 30000,
          sandbox_dir := some "/w", readonly_mode := true, enable_filesystem := true,
          enable_shell := true, enable_git := true, enable_network := true }
        (.ok ()) "x.txt" "y" = .error readonlyMsg :=
  (readonly_blocks_filesystem "/"
    { working_dir := "/w", allowed_commands := [], timeout_ms := 30000,
      sandbox_dir := some "/w", readonly_mode := true, enable_filesystem := true,
      enable_shell := true, enable_git := true, enable_network := true }
    (.ok ()) "x.txt" "y" "a" "b" "c" rfl).1

-- ───────────────────────── claim C4 ─────────────────────────

/-- C4 (amended): every executor envelope has `duration_ms ≥ 0`, and a
successful envelope carries no `error`; when `success` is false the error is
the non-empty unknown-tool message or the thrown message, but a tool that
reports `success=false` without an `error` field leaves the envelope's
`error` absent. -/
theorem executeEnvelope_invariants (caps : List String) (toolName : String)
    (outcome : Except String JVal) (elapsed : Nat) :
    (executeEnvelope caps toolName outcome elapsed).duration_ms ≥ 0
    ∧ ((executeEnvelope caps toolName outcome elapsed).success = true →
        (executeEnvelope caps toolName outcome elapsed).error = none)
    ∧ (caps.contains toolName = false →
        (executeEnvelope caps toolName outcome elapsed).error
            = some (.jstr (unknownToolMsg caps toolName))
          ∧ unknownToolMsg caps toolName ≠ "")
    ∧ (caps.contains toolName = true → ∀ msg, outcome = .error msg →
        (executeEnvelope caps toolName outcome elapsed).success = false
          ∧ (executeEnvelope caps toolName outcome elapsed).error = some (.jstr msg))
    ∧ (caps.contains toolName = true → ∀ fields, outcome = .ok (.jobj fields) →
        jLookup fields "success" = some (.jbool false) →
        (executeEnvelope caps toolName outcome elapsed).success = false
          ∧ (executeEnvelope caps toolName outcome elapsed).error = jLookup fields "error") := by
  refine ⟨Nat.zero_le _, ?_, ?_, ?_, ?_⟩
  · intro hs
    by_cases hc : toolName ∈ caps
    · cases outcome with
      | error msg => simp [executeEnvelope, hc] at hs
      | ok parsed =>
        by_cases hte : isToolError parsed
        · simp [executeEnvelope, hc, hte] at hs
        · simp [executeEnvelope, hc, hte]
    · simp [executeEnvelope, hc] at hs
  · intro hc
    have hc' : toolName ∉ caps := by simpa using hc
    refine ⟨by simp [executeEnvelope, hc'], ?_⟩
    intro hcontra
    have hdata := congrArg String.data hcontra
    simp [unknownToolMsg, strData_append] at hdata
  · intro hc msg hout
    subst hout
    have hc' : toolName ∈ caps := by simpa using hc
    simp [executeEnvelope, hc']
  · intro hc fields hout hfail
    subst hout
    have hc' : toolName ∈ caps := by simpa using hc
    have hte : isToolError (.jobj fields) = true := by simp [isToolError, hfail]
    simp [executeEnvelope, hc', hte, toolErrorField]

/-- Counterexample for C4 as stated ("if `success` is false then `error` is a
non-empty string"): `run_command` on a failing command returns
`{success:false, stdout, stderr, exitCode, timedOut}` with no `error` field,
so the executor's failed envelope has an absent `error`. -/
theorem runCommand_failure_without_error :
    (executeEnvelope ["run_command"] "run_command"
        (run_command "/"
          { working_dir := "/w", allowed_commands := [], timeout_ms := 30000,
            sandbox_dir := some "/w", readonly_mode := false, enable_filesystem := true,
            enable_shell := true, enable_git := true, enable_network := true }
          (fun _ _ => { exitCode := 1, stdout := "", stderr := "boom", timedOut := false })
          "false" [] none none) 7).success = false
    ∧ (executeEnvelope ["run_command"] "run_command"
        (run_command "/"
          { working_dir := "/w", allowed_commands := [], timeout_ms := 30000,
            sandbox_dir := some "/w", readonly_mode := false, enable_filesystem := true,
            enable_shell := true, enable_git := true, enable_network := true }
          (fun _ _ => { exitCode := 1, stdout := "", stderr := "boom", timedOut := false })
          "false" [] none none) 7).error = none :=
  ⟨rfl, rfl⟩

/-- Witness for C4's amended theorem: the unknown-tool branch at a concrete
input. -/
theorem executeEnvelope_invariants_witness :
    (executeEnvelope ["read_file"] "nope" (.ok .jnull) 5).error
        = some (.jstr (unknownToolMsg ["read_file"] "nope"))
      ∧ unknownToolMsg ["read_file"] "nope" ≠ "" :=
  (executeEnvelope_invariants ["read_file"] "nope" (.ok .jnull) 5).2.2.1 (by decide)

-- ───────────────────────── claim C5 ─────────────────────────

/-- C5 (amended): a handshake is accepted iff the `x-smith-auth` header holds
exactly the configured token and the `x-smith-protocol-version` header, when
present and non-empty, parses (JavaScript `parseInt`, radix 10) to the
protocol version 1; an empty version header is ignored (truthiness check),
and a refused handshake sends no frames. -/
theorem verifyAuth_spec (auth_token : String) (hdrAuth hdrPv : Option String)
    (h : auth_token ≠ "") :
    (verifyAuth auth_token hdrAuth hdrPv = true ↔ (hdrAuth = some auth_token ∧ pvAccept hdrPv))
    ∧ (verifyAuth auth_token hdrAuth hdrPv = false →
        ∀ (reg : OutMsg), handshakeFrames auth_token hdrAuth hdrPv reg = []) := by
  constructor
  · cases hdrAuth with
    | none => simp [verifyAuth]
    | some token =>
      by_cases ht : token = ""
      · subst ht
        constructor
        · intro hv
          simp [verifyAuth] at hv
        · rintro ⟨heq, -⟩
          exact absurd (Option.some.inj heq).symm h
      · by_cases hta : token = auth_token
        · subst hta
          cases hdrPv with
          | none => simp [verifyAuth, ht, pvAccept]
          | some pv =>
            by_cases hpv : pv = ""
            · subst hpv
              simp [verifyAuth, ht, pvAccept]
            · by_cases hp1 : parseIntTen pv = some SMITH_PROTOCOL_VERSION
              · simp [verifyAuth, ht, hpv, hp1, pvAccept]
              · simp [verifyAuth, ht, hpv, hp1, pvAccept]
        · constructor
          · intro hv
            simp [verifyAuth, ht, hta] at hv
          · rintro ⟨heq, -⟩
            exact absurd (Option.some.inj heq) hta
  · intro hf reg
    simp [handshakeFrames, hf]

/-- Counterexample for C5 as stated: a present-but-empty
`x-smith-protocol-version` header does not parse to 1, yet the handshake is
accepted (the code's truthiness check skips the empty string). -/
theorem verifyAuth_empty_version_header :
    verifyAuth "secret" (some "secret") (some "") = true
    ∧ parseIntTen "" ≠ some SMITH_PROTOCOL_VERSION := by
  exact ⟨rfl, by decide⟩

/-- Witness for C5's amended theorem: acceptance with the right token and no
version header. -/
theorem verifyAuth_spec_witness : verifyAuth "t" (some "t") none = true :=
  ((verifyAuth_spec "t" (some "t") none (by decide)).1).mpr ⟨rfl, trivial⟩

-- ───────────────────────── claim C7 ─────────────────────────

/-- C7 (amended): `isCommandAllowed` returns true when the allowlist is
empty, and otherwise iff the normalized base-name of the command's
`split(/\s+/)[0]` token (so an empty token for a command with leading
whitespace) is a member of the similarly normalized allowlist. -/
theorem isCommandAllowed_amended (cmd : String) (allow : List String) :
    isCommandAllowed cmd allow = specCommandAllowedAmended cmd allow := by
  unfold isCommandAllowed specCommandAllowedAmended
  by_cases he : allow.isEmpty
  · simp [he]
  · rw [if_neg he, if_neg he]
    apply Bool.eq_iff_iff.mpr
    simp only [List.any_eq_true, beq_iff_eq, List.contains, List.elem_iff, List.mem_map,
      extractBinaryName, specNormalize]

/-- Counterexample for C7 as stated: for a command with leading whitespace
the spec's "first token" is `git`, which is in the allowlist, but the code's
`split(/\s+/)[0]` is the empty string, so the command is refused. -/
theorem isCommandAllowed_leading_whitespace :
    isCommandAllowed " git" ["git"] = false
    ∧ specCommandAllowed " git" ["git"] = true := by decide

/-- Witness for C7's amended theorem at a concrete command and allowlist. -/
theorem isCommandAllowed_amended_witness :
    isCommandAllowed "git commit" ["git", "npm"]
      = specCommandAllowedAmended "git commit" ["git", "npm"] :=
  isCommandAllowed_amended "git commit" ["git", "npm"]

-- ───────────────────────── claim C8 ─────────────────────────

theorem utf8Encode_aRep : ∀ n : Nat, utf8Encode (aRep n) = List.replicate n 97 := by
  intro n
  induction n with
  | zero => rfl
  | succ k ih =>
    have : aRep (k + 1) = String.mk ('a' :: List.replicate k 'a') := by
      simp [aRep, List.replicate_succ]
    rw [this]
    show charUtf8Bytes 'a' ++ utf8Encode (aRep k) = List.replicate (k + 1) 97
    rw [ih, List.replicate_succ]
    rfl

theorem utf8Len_aRep (n : Nat) : utf8Len (aRep n) = n := by
  simp [utf8Len, utf8Encode_aRep]

theorem decodeUtf8Go_ascii :
    ∀ (fuel : Nat) (l : List Nat), (∀ b ∈ l, b < 0x80) → l.length ≤ fuel →
      decodeUtf8Go fuel l = l.map Char.ofNat := by
  intro fuel
  induction fuel with
  | zero =>
    intro l _ hl
    cases l with
    | nil => rfl
    | cons b rest => simp at hl
  | succ f ih =>
    intro l hb hl
    cases l with
    | nil => rfl
    | cons b rest =>
      have hblt : b < 0x80 := hb b (List.mem_cons_self b rest)
      show decodeUtf8Go (f + 1) (b :: rest) = Char.ofNat b :: rest.map Char.ofNat
      unfold decodeUtf8Go
      rw [if_pos hblt]
      congr 1
      refine ih rest (fun x hx => hb x (List.mem_cons_of_mem b hx)) ?_
      simp only [List.length_cons] at hl
      omega

theorem decodeUtf8_rep97 (n : Nat) : decodeUtf8 (List.replicate n 97) = aRep n := by
  unfold decodeUtf8 decodeUtf8Chars
  rw [decodeUtf8Go_ascii _ _ (fun b hb => by
        have := List.eq_of_mem_replicate hb
        omega)
      (le_refl _)]
  simp only [List.map_replicate, aRep]

/-- C8: `truncateOutput` leaves any string of at most 50 KiB of UTF-8 bytes
unchanged (in particular exactly 50 KiB); beyond the cap it keeps the decoded
first 50 KiB of UTF-8 bytes and appends the marker stating the original byte
count (so a 50 KiB + 1 byte string is changed). -/
theorem truncateOutput_spec :
    (∀ s, utf8Len s ≤ MAX_OUTPUT_BYTES → truncateOutput s = s)
    ∧ (∀ s, MAX_OUTPUT_BYTES < utf8Len s →
        truncateOutput s
          = decodeUtf8 ((utf8Encode s).take MAX_OUTPUT_BYTES) ++ truncMarker (utf8Len s))
    ∧ truncateOutput (aRep 51200) = aRep 51200
    ∧ truncateOutput (aRep 51201) ≠ aRep 51201 := by
  have h1 : ∀ s, utf8Len s ≤ MAX_OUTPUT_BYTES → truncateOutput s = s := by
    intro s hs
    unfold truncateOutput
    rw [if_pos hs]
  have h2 : ∀ s, MAX_OUTPUT_BYTES < utf8Len s →
      truncateOutput s
        = decodeUtf8 ((utf8Encode s).take MAX_OUTPUT_BYTES) ++ truncMarker (utf8Len s) := by
    intro s hs
    unfold truncateOutput
    rw [if_neg (by omega)]
  refine ⟨h1, h2, h1 _ (by rw [utf8Len_aRep]; decide), ?_⟩
  have hlen : utf8Len (aRep 51201) = 51201 := utf8Len_aRep 51201
  have heq : truncateOutput (aRep 51201) = aRep 51200 ++ truncMarker 51201 := by
    rw [h2 _ (by rw [hlen]; decide), hlen, utf8Encode_aRep]
    have htake : (List.replicate 51201 97).take MAX_OUTPUT_BYTES = List.replicate 51200 97 := by
      rw [List.take_replicate]
      have hmin : min MAX_OUTPUT_BYTES 51201 = 51200 := by decide
      rw [hmin]
    rw [htake, decodeUtf8_rep97]
  rw [heq]
  intro hcontra
  have hlens := congrArg (fun s => s.data.length) hcontra
  simp only [strData_append, List.length_append, aRep, List.length_replicate] at hlens
  have hm : (truncMarker 51201).data.length ≠ 1 := by decide
  omega

/-- Witness for C8: the identity branch on a small string and the truncation
branch at the 50 KiB + 1 boundary. -/
theorem truncateOutput_spec_witness :
    truncateOutput "hi" = "hi"
    ∧ truncateOutput (aRep 51201)
        = decodeUtf8 ((utf8Encode (aRep 51201)).take MAX_OUTPUT_BYTES)
            ++ truncMarker (utf8Len (aRep 51201)) :=
  ⟨truncateOutput_spec.1 "hi" (by decide),
    truncateOutput_spec.2.1 (aRep 51201) (by rw [utf8Len_aRep]; decide)⟩

-- ───────────────────────── claim C9 ─────────────────────────

/-- C9 (amended): the `enabled_categories` of a `config_report` are exactly
the toggleable categories whose flags are set plus the always-loaded
`processes`, `packages` and `system` (as a multiset) — that is, the built
category set minus `browser`, which `buildDevKit` always loads but the report
omits. -/
theorem buildDevKitCategories_eq (ctx : ToolContext) :
    buildDevKitCategories ctx
      = (if ctx.enable_filesystem then ["filesystem"] else [])
        ++ (if ctx.enable_shell then ["shell"] else [])
        ++ ["processes"]
        ++ (if ctx.enable_network then ["network"] else [])
        ++ (if ctx.enable_git then ["git"] else [])
        ++ ["packages", "system", "browser"] := by
  rcases ctx with ⟨wd, ac, tm, sd, ro, ef, es, eg, en⟩
  cases ef <;> cases es <;> cases eg <;> cases en <;>
    simp [buildDevKitCategories, registeredCategories, categoryEnabled,
      List.filter_cons, List.filter_nil]

theorem enabledCategoriesReport_spec (cfg : SmithLocalConfig) :
    List.Perm (enabledCategoriesReport cfg)
      ((buildDevKitCategories (ctxOfConfig cfg)).filter (fun c => c ≠ "browser")) := by
  rcases cfg with ⟨name, tok, sdir, ro, ef, es, eg, en, allow, tmo, mct⟩
  rw [buildDevKitCategories_eq]
  show List.Perm ((if ef then ["filesystem"] else []) ++ (if es then ["shell"] else [])
      ++ (if eg then ["git"] else []) ++ (if en then ["network"] else [])
      ++ ["processes", "packages", "system"])
    (List.filter (fun c => c ≠ "browser")
      ((if ef then ["filesystem"] else []) ++ (if es then ["shell"] else [])
        ++ ["processes"] ++ (if en then ["network"] else []) ++ (if eg then ["git"] else [])
        ++ ["packages", "system", "browser"]))
  cases ef <;> cases es <;> cases eg <;> cases en <;> decide

/-- Counterexample for C9 as stated ("`enabled_categories` equals the set of
categories whose tools are built and can execute"): under the default
configuration the always-loaded `browser` category is built by `buildDevKit`
but missing from the report. -/
theorem enabledCategoriesReport_omits_browser :
    "browser" ∈ buildDevKitCategories (ctxOfConfig
        { name := "smith", auth_token := "t", sandbox_dir := "/workspace",
          readonly_mode := false, enable_filesystem := true, enable_shell := true,
          enable_git := true, enable_network := true, allowed_shell_commands := [],
          timeout_ms := 30000, max_concurrent_tasks := 5 })
    ∧ "browser" ∉ enabledCategoriesReport
        { name := "smith", auth_token := "t", sandbox_dir := "/workspace",
          readonly_mode := false, enable_filesystem := true, enable_shell := true,
          enable_git := true, enable_network := true, allowed_shell_commands := [],
          timeout_ms := 30000, max_concurrent_tasks := 5 } := by decide

/-- Witness for C9's amended theorem at a configuration with git disabled. -/
theorem enabledCategoriesReport_spec_witness :
    List.Perm (enabledCategoriesReport
        { name := "smith", auth_token := "t", sandbox_dir := "/workspace",
          readonly_mode := false, enable_filesystem := true, enable_shell := true,
          enable_git := false, enable_network := true, allowed_shell_commands := [],
          timeout_ms := 30000, max_concurrent_tasks := 5 })
      ((buildDevKitCategories (ctxOfConfig
          { name := "smith", auth_token := "t", sandbox_dir := "/workspace",
            readonly_mode := false, enable_filesystem := true, enable_shell := true,
            enable_git := false, enable_network := true, allowed_shell_commands := [],
            timeout_ms := 30000, max_concurrent_tasks := 5 })).filter
        (fun c => c ≠ "browser")) :=
  enabledCategoriesReport_spec
    { name := "smith", auth_token := "t", sandbox_dir := "/workspace",
      readonly_mode := false, enable_filesystem := true, enable_shell := true,
      enable_git := false, enable_network := true, allowed_shell_commands := [],
      timeout_ms := 30000, max_concurrent_tasks := 5 }

-- ───────────────────────── claim C10 ─────────────────────────

/-- C10: a tool name outside the enabled set makes `execute` return
`success=false`, `data=null`, `duration_ms=0` and an error string naming the
unknown tool and listing every available capability, independently of any
handler behavior. -/
theorem executeEnvelope_unknownTool (caps : List String) (toolName : String)
    (outcome : Except String JVal) (elapsed : Nat)
    (h : caps.contains toolName = false) :
    executeEnvelope caps toolName outcome elapsed
        = { success := false, data := .jnull,
            error := some (.jstr (unknownToolMsg caps toolName)), duration_ms := 0 }
    ∧ (∃ pre suf, (unknownToolMsg caps toolName).data = pre ++ toolName.data ++ suf)
    ∧ (∀ c ∈ caps, ∃ pre suf, (unknownToolMsg caps toolName).data = pre ++ c.data ++ suf)
    ∧ (∀ (outcome2 : Except String JVal) (elapsed2 : Nat),
        executeEnvelope caps toolName outcome2 elapsed2
          = executeEnvelope caps toolName outcome elapsed) := by
  have h' : toolName ∉ caps := by simpa using h
  refine ⟨by simp [executeEnvelope, h'], ?_, ?_, ?_⟩
  · refine ⟨("Unknown tool: " ++ sq).data,
      (sq ++ ". Available: [" ++ joinComma caps ++ "]").data, ?_⟩
    simp [unknownToolMsg, strData_append]
  · intro c hc
    obtain ⟨pre, suf, hps⟩ := joinComma_mem_decomp c caps hc
    refine ⟨("Unknown tool: " ++ sq ++ toolName ++ sq ++ ". Available: [").data ++ pre,
      suf ++ "]".data, ?_⟩
    simp [unknownToolMsg, strData_append, hps]
  · intro outcome2 elapsed2
    simp [executeEnvelope, h']

/-- Witness for C10: the unknown-tool envelope at a concrete capability set
and tool name. -/
theorem executeEnvelope_unknownTool_witness :
    executeEnvelope ["read_file", "run_command"] "frobnicate" (.ok .jnull) 9
      = { success := false, data := .jnull,
          error := some (.jstr (unknownToolMsg ["read_file", "run_command"] "frobnicate")),
          duration_ms := 0 } :=
  (executeEnvelope_unknownTool ["read_file", "run_command"] "frobnicate" (.ok .jnull) 9
    (by decide)).1

end Smith
